import Mathlib

/-!
Shallow embedding of the genre-based personality scoring core of
`spotifyapp.py`: the MBTI heuristic `mbti_from_genres` and the Big-Five
scorer `ocean_from_genres` together with its static weight table
`OCEAN_WEIGHTS`.  Strings are Lean `String`s; Python's `str.lower()` is
modelled character-wise (all table keys are ASCII); NumPy's float
arithmetic (`trait_totals / hits`, `np.interp`, `.round(1)`) is modelled
exactly over `ℚ`, with `np.interp`'s clamping behaviour and NumPy's
round-half-to-even rounding made explicit.
-/

namespace SpotifyApp

/-- Python's `str.lower()` applied character-wise (the genre vocabulary is
ASCII, where `str.lower` lowercases each character independently). -/
def pyLower (s : String) : String := ⟨s.data.map Char.toLower⟩

/-! ## MBTI classifier (`mbti_from_genres`, lines 68–94) -/

/-- The tally dict `t = {k: 0 for k in "IENSTFJP"}` of `mbti_from_genres`:
a count for each of the 8 axis letters. -/
@[ext] structure Tally where
  I : ℕ
  E : ℕ
  N : ℕ
  S : ℕ
  T : ℕ
  F : ℕ
  J : ℕ
  P : ℕ
deriving DecidableEq, Repr

def Tally.zero : Tally := ⟨0, 0, 0, 0, 0, 0, 0, 0⟩

def Tally.add (a b : Tally) : Tally :=
  ⟨a.I + b.I, a.E + b.E, a.N + b.N, a.S + b.S, a.T + b.T, a.F + b.F,
   a.J + b.J, a.P + b.P⟩

instance : Zero Tally := ⟨Tally.zero⟩
instance : Add Tally := ⟨Tally.add⟩

@[simp] theorem Tally.zero_I : (0 : Tally).I = 0 := rfl
@[simp] theorem Tally.zero_E : (0 : Tally).E = 0 := rfl
@[simp] theorem Tally.zero_N : (0 : Tally).N = 0 := rfl
@[simp] theorem Tally.zero_S : (0 : Tally).S = 0 := rfl
@[simp] theorem Tally.zero_T : (0 : Tally).T = 0 := rfl
@[simp] theorem Tally.zero_F : (0 : Tally).F = 0 := rfl
@[simp] theorem Tally.zero_J : (0 : Tally).J = 0 := rfl
@[simp] theorem Tally.zero_P : (0 : Tally).P = 0 := rfl

@[simp] theorem Tally.add_I (a b : Tally) : (a + b).I = a.I + b.I := rfl
@[simp] theorem Tally.add_E (a b : Tally) : (a + b).E = a.E + b.E := rfl
@[simp] theorem Tally.add_N (a b : Tally) : (a + b).N = a.N + b.N := rfl
@[simp] theorem Tally.add_S (a b : Tally) : (a + b).S = a.S + b.S := rfl
@[simp] theorem Tally.add_T (a b : Tally) : (a + b).T = a.T + b.T := rfl
@[simp] theorem Tally.add_F (a b : Tally) : (a + b).F = a.F + b.F := rfl
@[simp] theorem Tally.add_J (a b : Tally) : (a + b).J = a.J + b.J := rfl
@[simp] theorem Tally.add_P (a b : Tally) : (a + b).P = a.P + b.P := rfl

instance : AddCommMonoid Tally where
  add_assoc a b c := by ext <;> simp [Nat.add_assoc]
  zero_add a := by ext <;> simp
  add_zero a := by ext <;> simp
  add_comm a b := by ext <;> simp [Nat.add_comm]
  nsmul := nsmulRec

/-- Category membership lists of `mbti_from_genres`, in source order. -/
def catINFP : List String := ["indie", "folk", "ambient", "lo-fi"]

def catESFJ : List String := ["pop", "dance pop", "electropop", "k-pop"]

def catESTP : List String := ["hip hop", "rap", "trap"]

def catINTJ : List String := ["classical", "jazz", "instrumental"]

def catESTP2 : List String := ["rock", "metal", "punk"]

def catIFJ : List String := ["r&b", "soul"]

def catINTP : List String := ["alternative"]

/-- The `if g in [...] / elif ...` chain of `mbti_from_genres`, acting on the
already lower-cased genre `g`. -/
def tallyGenre (t : Tally) (g : String) : Tally :=
  if g ∈ catINFP then
    { t with I := t.I + 1, N := t.N + 1, F := t.F + 1, P := t.P + 1 }
  else if g ∈ catESFJ then
    { t with E := t.E + 1, S := t.S + 1, F := t.F + 1, J := t.J + 1 }
  else if g ∈ catESTP then
    { t with E := t.E + 1, S := t.S + 1, T := t.T + 1, P := t.P + 1 }
  else if g ∈ catINTJ then
    { t with I := t.I + 1, N := t.N + 1, T := t.T + 1, J := t.J + 1 }
  else if g ∈ catESTP2 then
    { t with E := t.E + 1, S := t.S + 1, T := t.T + 1, P := t.P + 1 }
  else if g ∈ catIFJ then
    { t with I := t.I + 1, F := t.F + 1, J := t.J + 1 }
  else if g ∈ catINTP then
    { t with I := t.I + 1, N := t.N + 1, T := t.T + 1, P := t.P + 1 }
  else t

/-- One iteration of the `for g in genres` loop: `g = g.lower()` followed by
the category chain. -/
def mbtiStep (t : Tally) (g : String) : Tally := tallyGenre t (pyLower g)

/-- `mbti_from_genres` (lines 68–94): empty input returns the sentinel
`"Unknown"`; otherwise the 4 axes are resolved left-letter-wins-on-tie. -/
def mbti_from_genres (genres : List String) : String :=
  if genres = [] then "Unknown"
  else
    let t := genres.foldl mbtiStep Tally.zero
    (if t.I ≥ t.E then "I" else "E") ++
    (if t.N ≥ t.S then "N" else "S") ++
    (if t.T ≥ t.F then "T" else "F") ++
    (if t.J ≥ t.P then "J" else "P")

/-- The tally built by the classifier's loop over the whole input. -/
def mbtiTally (genres : List String) : Tally :=
  genres.foldl mbtiStep Tally.zero

/-! ## OCEAN scorer (`OCEAN_WEIGHTS`, lines 97–118; `ocean_from_genres`,
lines 121–133) -/

/-- A row of the weight table: (Openness, Conscientiousness, Extraversion,
Agreeableness, Neuroticism), each on the 1–5 raw scale. -/
abbrev W5 := ℕ × ℕ × ℕ × ℕ × ℕ

/-- The 19-entry dict `OCEAN_WEIGHTS`, as keyed data in source order. -/
def OCEAN_WEIGHTS : List (String × W5) :=
  [("indie", (4, 1, 2, 2, 1)),
   ("lo-fi", (4, 1, 1, 2, 1)),
   ("classical", (5, 4, 1, 3, 1)),
   ("jazz", (5, 3, 2, 3, 1)),
   ("alt rock", (4, 2, 3, 2, 2)),
   ("rock", (3, 2, 4, 2, 2)),
   ("metal", (2, 2, 4, 1, 3)),
   ("hip hop", (2, 2, 4, 2, 2)),
   ("trap", (2, 1, 4, 2, 3)),
   ("pop", (3, 3, 4, 3, 2)),
   ("dance pop", (2, 3, 5, 3, 1)),
   ("edm", (3, 2, 5, 2, 1)),
   ("r&b", (3, 2, 3, 4, 2)),
   ("soul", (4, 2, 3, 4, 1)),
   ("folk", (4, 2, 2, 4, 1)),
   ("ambient", (4, 1, 1, 3, 1)),
   ("punk", (2, 2, 4, 1, 3)),
   ("electropop", (3, 3, 5, 3, 1)),
   ("k-pop", (3, 3, 5, 3, 2))]

/-- Dict lookup: `OCEAN_WEIGHTS[g]` when `g in OCEAN_WEIGHTS`, else `none`. -/
def weightOf (g : String) : Option W5 := OCEAN_WEIGHTS.lookup g

/-- State of the `for` loop of `ocean_from_genres`: the running
`trait_totals` vector and the `hits` counter. -/
abbrev OceanAcc := W5 × ℕ

/-- The body of the loop for an already lower-cased genre: on a table hit
add the weight row elementwise and increment `hits`, else skip. -/
def accGenre (acc : OceanAcc) (g : String) : OceanAcc :=
  match weightOf g with
  | some w => (acc.1 + w, acc.2 + 1)
  | none => acc

/-- One iteration of the loop: `g = g.lower()` then table lookup. -/
def oceanStep (acc : OceanAcc) (g : String) : OceanAcc :=
  accGenre acc (pyLower g)

/-- `np.interp(m, (1, 5), (20, 80))`: clamps below 1 and above 5, linear
interpolation in between (slope `(80-20)/(5-1) = 15`). -/
def interp (m : ℚ) : ℚ :=
  if m ≤ 1 then 20
  else if 5 ≤ m then 80
  else 20 + (m - 1) * 15

/-- IEEE-754 / NumPy rounding of a rational to the nearest integer,
ties to even. -/
def roundHalfEven (q : ℚ) : ℤ :=
  if q - ⌊q⌋ < 1/2 then ⌊q⌋
  else if 1/2 < q - ⌊q⌋ then ⌊q⌋ + 1
  else if 2 ∣ ⌊q⌋ then ⌊q⌋ else ⌊q⌋ + 1

/-- NumPy's `.round(1)`: round to one decimal place, ties to even. -/
def round1 (q : ℚ) : ℚ := (roundHalfEven (10 * q) : ℚ) / 10

/-- `ocean_from_genres` (lines 121–133): accumulate matched weight rows,
return the all-50s sentinel when nothing matched, otherwise the rescaled
rounded elementwise mean. -/
def ocean_from_genres (genres : List String) : ℚ × ℚ × ℚ × ℚ × ℚ :=
  let acc := genres.foldl oceanStep ((0, 0, 0, 0, 0), 0)
  if acc.2 = 0 then (50, 50, 50, 50, 50)
  else
    (round1 (interp ((acc.1.1 : ℚ) / (acc.2 : ℚ))),
     round1 (interp ((acc.1.2.1 : ℚ) / (acc.2 : ℚ))),
     round1 (interp ((acc.1.2.2.1 : ℚ) / (acc.2 : ℚ))),
     round1 (interp ((acc.1.2.2.2.1 : ℚ) / (acc.2 : ℚ))),
     round1 (interp ((acc.1.2.2.2.2 : ℚ) / (acc.2 : ℚ))))

/-- A genre (after case folding) matches some classifier category. -/
def inAnyCategory (g : String) : Prop :=
  pyLower g ∈ catINFP ∨ pyLower g ∈ catESFJ ∨ pyLower g ∈ catESTP ∨
  pyLower g ∈ catINTJ ∨ pyLower g ∈ catESTP2 ∨ pyLower g ∈ catIFJ ∨
  pyLower g ∈ catINTP

instance (g : String) : Decidable (inAnyCategory g) := by
  unfold inAnyCategory; infer_instance

/-- The weight rows matched by an input, in order: the multiset whose
elementwise mean the scorer reports. -/
def matchedWeights (genres : List String) : List W5 :=
  genres.filterMap (fun g => weightOf (pyLower g))

/-- The number of input genres matching the weight table (`hits`). -/
def hitCount (gs : List String) : ℕ := (matchedWeights gs).length

/-- One component of the accumulated totals. -/
def colSum (gs : List String) (f : W5 → ℕ) : ℕ :=
  ((matchedWeights gs).map f).sum

/-- One component of the elementwise mean `trait_totals / hits`. -/
def oceanMean (gs : List String) (f : W5 → ℕ) : ℚ :=
  (colSum gs f : ℚ) / (hitCount gs : ℚ)

/-- The scorer as the specification words it: the elementwise mean of the
matched weight rows (`accumulator / hit counter`), linearly rescaled from
domain `[1, 5]` to range `[20, 80]` by
`rescaled = 20 + (mean - 1) * (80 - 20) / (5 - 1)` and rounded to one
decimal place half-to-even, with the all-50s sentinel when no genre
matched.  Stated from the spec's words, to be compared with
`ocean_from_genres`. -/
def score_spec (genres : List String) : ℚ × ℚ × ℚ × ℚ × ℚ :=
  let matched := matchedWeights genres
  if matched = [] then (50, 50, 50, 50, 50)
  else
    (round1 (20 + ((matched.map fun w => (w.1 : ℚ)).sum /
        (matched.length : ℚ) - 1) * (80 - 20) / (5 - 1)),
     round1 (20 + ((matched.map fun w => (w.2.1 : ℚ)).sum /
        (matched.length : ℚ) - 1) * (80 - 20) / (5 - 1)),
     round1 (20 + ((matched.map fun w => (w.2.2.1 : ℚ)).sum /
        (matched.length : ℚ) - 1) * (80 - 20) / (5 - 1)),
     round1 (20 + ((matched.map fun w => (w.2.2.2.1 : ℚ)).sum /
        (matched.length : ℚ) - 1) * (80 - 20) / (5 - 1)),
     round1 (20 + ((matched.map fun w => (w.2.2.2.2 : ℚ)).sum /
        (matched.length : ℚ) - 1) * (80 - 20) / (5 - 1)))

/-! ## Accumulator algebra -/

theorem foldl_shift_sum {M : Type} [AddCommMonoid M] (f : M → String → M)
    (hf : ∀ a g, f a g = a + f 0 g) (gs : List String) :
    ∀ a : M, gs.foldl f a = a + (gs.map (f 0)).sum := by
  induction gs with
  | nil => intro a; simp
  | cons g gs ih =>
    intro a
    simp only [List.foldl_cons, List.map_cons, List.sum_cons, ih, hf a g,
      add_assoc]

theorem tallyGenre_shift (t : Tally) (g : String) :
    tallyGenre t g = t + tallyGenre 0 g := by
  unfold tallyGenre
  split_ifs <;> ext <;> simp

theorem mbtiStep_shift (t : Tally) (g : String) :
    mbtiStep t g = t + mbtiStep 0 g := by
  unfold mbtiStep; exact tallyGenre_shift t (pyLower g)

theorem accGenre_shift (acc : OceanAcc) (g : String) :
    accGenre acc g = acc + accGenre 0 g := by
  unfold accGenre
  cases weightOf g <;>
    simp [Prod.ext_iff, Prod.add_def]

theorem oceanStep_shift (acc : OceanAcc) (g : String) :
    oceanStep acc g = acc + oceanStep 0 g := by
  unfold oceanStep; exact accGenre_shift acc (pyLower g)

/-- The tally built by the classifier's loop is the sum of the per-genre
contributions. -/
theorem mbtiFold_eq_sum (gs : List String) :
    gs.foldl mbtiStep Tally.zero = (gs.map (mbtiStep 0)).sum := by
  have h := foldl_shift_sum mbtiStep mbtiStep_shift gs 0
  simpa using h

/-- The scorer's loop state is the elementwise sum of the matched rows
paired with their number. -/
theorem oceanFold_eq_sum (gs : List String) :
    gs.foldl oceanStep ((0, 0, 0, 0, 0), 0) =
      ((matchedWeights gs).sum, (matchedWeights gs).length) := by
  have h0 : ((0, 0, 0, 0, 0), 0) = (0 : OceanAcc) := rfl
  rw [h0, foldl_shift_sum oceanStep oceanStep_shift gs 0, zero_add]
  induction gs with
  | nil => simp [matchedWeights]
  | cons g gs ih =>
    cases h : weightOf (pyLower g) with
    | none =>
      simp only [List.map_cons, List.sum_cons, matchedWeights,
        List.filterMap_cons, h, oceanStep, accGenre]
      simp [matchedWeights] at ih
      simp [ih]
    | some w =>
      simp only [List.map_cons, List.sum_cons, matchedWeights,
        List.filterMap_cons, h, List.length_cons, oceanStep, accGenre]
      simp [matchedWeights] at ih
      simp [ih, Prod.ext_iff, Prod.add_def, Nat.add_comm]

theorem fst_list_sum {α β : Type} [AddCommMonoid α] [AddCommMonoid β] :
    ∀ l : List (α × β), l.sum.1 = (l.map Prod.fst).sum := by
  intro l
  induction l with
  | nil => simp
  | cons x l ih => simp [ih]

theorem snd_list_sum {α β : Type} [AddCommMonoid α] [AddCommMonoid β] :
    ∀ l : List (α × β), l.sum.2 = (l.map Prod.snd).sum := by
  intro l
  induction l with
  | nil => simp
  | cons x l ih => simp [ih]

theorem w5sum_1 (l : List W5) : l.sum.1 = (l.map fun w => w.1).sum :=
  fst_list_sum l

theorem w5sum_2 (l : List W5) : l.sum.2.1 = (l.map fun w => w.2.1).sum := by
  rw [snd_list_sum, fst_list_sum, List.map_map]; rfl

theorem w5sum_3 (l : List W5) :
    l.sum.2.2.1 = (l.map fun w => w.2.2.1).sum := by
  rw [snd_list_sum, snd_list_sum, fst_list_sum, List.map_map, List.map_map]
  rfl

theorem w5sum_4 (l : List W5) :
    l.sum.2.2.2.1 = (l.map fun w => w.2.2.2.1).sum := by
  rw [snd_list_sum, snd_list_sum, snd_list_sum, fst_list_sum, List.map_map,
    List.map_map, List.map_map]
  rfl

theorem w5sum_5 (l : List W5) :
    l.sum.2.2.2.2 = (l.map fun w => w.2.2.2.2).sum := by
  rw [snd_list_sum, snd_list_sum, snd_list_sum, snd_list_sum, List.map_map,
    List.map_map, List.map_map]
  rfl

/-! ## Rounding and interpolation lemmas -/

theorem roundHalfEven_intCast (z : ℤ) : roundHalfEven (z : ℚ) = z := by
  unfold roundHalfEven
  rw [if_pos (by rw [Int.floor_intCast]; norm_num :
    ((z : ℚ) - (⌊(z : ℚ)⌋ : ℚ) < 1/2))]
  exact Int.floor_intCast z

theorem round1_intOver10 (q : ℚ) (z : ℤ) (h : 10 * q = (z : ℚ)) :
    round1 q = (z : ℚ) / 10 := by
  unfold round1; rw [h, roundHalfEven_intCast]

/-- The rounded value differs from the input by at most one half, in either
direction (both bounds are attained at exact halves). -/
theorem roundHalfEven_bounds (q : ℚ) :
    (roundHalfEven q : ℚ) - 1/2 ≤ q ∧ q ≤ (roundHalfEven q : ℚ) + 1/2 := by
  have h1 : (⌊q⌋ : ℚ) ≤ q := Int.floor_le q
  have h2 : q < (⌊q⌋ : ℚ) + 1 := Int.lt_floor_add_one q
  unfold roundHalfEven
  split_ifs with ha hb hc <;> refine ⟨?_, ?_⟩ <;> push_cast <;> linarith

theorem round1_mem_Icc (x : ℚ) (lo hi : ℤ) (hlo : (lo : ℚ) ≤ x)
    (hhi : x ≤ (hi : ℚ)) :
    (lo : ℚ) ≤ round1 x ∧ round1 x ≤ (hi : ℚ) := by
  obtain ⟨hb1, hb2⟩ := roundHalfEven_bounds (10 * x)
  have hzu : roundHalfEven (10 * x) ≤ 10 * hi := by
    have hq : ((roundHalfEven (10 * x) : ℚ)) < ((10 * hi + 1 : ℤ) : ℚ) := by
      push_cast; linarith
    have := Int.cast_lt.mp hq
    omega
  have hzl : 10 * lo ≤ roundHalfEven (10 * x) := by
    have hq : ((10 * lo - 1 : ℤ) : ℚ) < ((roundHalfEven (10 * x) : ℚ)) := by
      push_cast; linarith
    have := Int.cast_lt.mp hq
    omega
  unfold round1
  constructor
  · rw [le_div_iff₀ (by norm_num : (0:ℚ) < 10)]
    calc (lo : ℚ) * 10 = ((10 * lo : ℤ) : ℚ) := by push_cast; ring
    _ ≤ (roundHalfEven (10 * x) : ℚ) := Int.cast_le.mpr hzl
  · rw [div_le_iff₀ (by norm_num : (0:ℚ) < 10)]
    calc (roundHalfEven (10 * x) : ℚ) ≤ ((10 * hi : ℤ) : ℚ) :=
      Int.cast_le.mpr hzu
    _ = (hi : ℚ) * 10 := by push_cast; ring

/-- On `[1, 5]` `np.interp` does not clamp: it is the raw linear rescaling
`20 + (m - 1) * 15`. -/
theorem interp_eq (m : ℚ) (hm1 : 1 ≤ m) (hm5 : m ≤ 5) :
    interp m = 20 + (m - 1) * 15 := by
  unfold interp
  split_ifs with ha hb <;> linarith

theorem interp_bounds (m : ℚ) (hm1 : 1 ≤ m) (hm5 : m ≤ 5) :
    20 ≤ interp m ∧ interp m ≤ 80 := by
  rw [interp_eq m hm1 hm5]
  constructor <;> nlinarith

/-! ## Weight-table facts -/

theorem lookup_mem {α β : Type} [BEq α] [LawfulBEq α] :
    ∀ (l : List (α × β)) (a : α) (b : β),
      List.lookup a l = some b → (a, b) ∈ l := by
  intro l a b
  induction l with
  | nil => intro h; simp [List.lookup] at h
  | cons p l ih =>
    obtain ⟨k, v⟩ := p
    intro h
    rcases eq_or_ne k a with rfl | hk
    · simp only [List.lookup, beq_self_eq_true] at h
      obtain rfl : v = b := by simpa using h
      exact List.mem_cons_self _ _
    · simp only [List.lookup, beq_eq_false_iff_ne.mpr (Ne.symm hk)] at h
      exact List.mem_cons_of_mem _ (ih h)

theorem weightOf_mem (g : String) (w : W5) (h : weightOf g = some w) :
    (g, w) ∈ OCEAN_WEIGHTS :=
  lookup_mem OCEAN_WEIGHTS g w h

theorem weights_bounds (g : String) (w : W5) (h : weightOf g = some w) :
    (1 ≤ w.1 ∧ w.1 ≤ 5) ∧ (1 ≤ w.2.1 ∧ w.2.1 ≤ 5) ∧
    (1 ≤ w.2.2.1 ∧ w.2.2.1 ≤ 5) ∧ (1 ≤ w.2.2.2.1 ∧ w.2.2.2.1 ≤ 5) ∧
    (1 ≤ w.2.2.2.2 ∧ w.2.2.2.2 ≤ 5) := by
  have hall : ∀ p ∈ OCEAN_WEIGHTS,
      (1 ≤ p.2.1 ∧ p.2.1 ≤ 5) ∧ (1 ≤ p.2.2.1 ∧ p.2.2.1 ≤ 5) ∧
      (1 ≤ p.2.2.2.1 ∧ p.2.2.2.1 ≤ 5) ∧
      (1 ≤ p.2.2.2.2.1 ∧ p.2.2.2.2.1 ≤ 5) ∧
      (1 ≤ p.2.2.2.2.2 ∧ p.2.2.2.2.2 ≤ 5) := by decide
  exact hall (g, w) (weightOf_mem g w h)

/-- Every weight row satisfies `O + 3·N ≤ 11`: rows with Neuroticism 3 all
have Openness 2.  (Used to show the scored case can never reproduce the
all-50s sentinel.) -/
theorem weights_o_plus_3n (g : String) (w : W5)
    (h : weightOf g = some w) : w.1 + 3 * w.2.2.2.2 ≤ 11 := by
  have hall : ∀ p ∈ OCEAN_WEIGHTS, p.2.1 + 3 * p.2.2.2.2.2 ≤ 11 := by decide
  exact hall (g, w) (weightOf_mem g w h)

theorem mem_matchedWeights {gs : List String} {w : W5}
    (h : w ∈ matchedWeights gs) : ∃ g, weightOf g = some w := by
  unfold matchedWeights at h
  obtain ⟨g, _, hg⟩ := List.mem_filterMap.mp h
  exact ⟨pyLower g, hg⟩

theorem col_sum_bounds (f : W5 → ℕ) :
    ∀ l : List W5, (∀ w ∈ l, 1 ≤ f w ∧ f w ≤ 5) →
      l.length ≤ (l.map f).sum ∧ (l.map f).sum ≤ 5 * l.length := by
  intro l
  induction l with
  | nil => simp
  | cons w l ih =>
    intro hb
    have h1 := hb w (List.mem_cons_self w l)
    have h2 := ih (fun x hx => hb x (List.mem_cons_of_mem _ hx))
    simp only [List.map_cons, List.sum_cons, List.length_cons]
    omega

theorem col_o3n_aux :
    ∀ l : List W5, (∀ w ∈ l, w.1 + 3 * w.2.2.2.2 ≤ 11) →
      (l.map fun w => w.1).sum + 3 * (l.map fun w => w.2.2.2.2).sum ≤
        11 * l.length := by
  intro l
  induction l with
  | nil => simp
  | cons w l ih =>
    intro hb
    have h1 := hb w (List.mem_cons_self w l)
    have h2 := ih (fun x hx => hb x (List.mem_cons_of_mem _ hx))
    simp only [List.map_cons, List.sum_cons, List.length_cons]
    omega

/-! ## The scorer in closed form -/

theorem hitCount_eq_zero_iff (gs : List String) :
    hitCount gs = 0 ↔ ∀ g ∈ gs, weightOf (pyLower g) = none := by
  unfold hitCount matchedWeights
  rw [List.length_eq_zero, List.filterMap_eq_nil_iff]

theorem ocean_from_genres_sentinel (gs : List String)
    (h : hitCount gs = 0) :
    ocean_from_genres gs = (50, 50, 50, 50, 50) := by
  unfold hitCount at h
  simp only [ocean_from_genres, oceanFold_eq_sum]
  rw [if_pos h]

theorem ocean_from_genres_scored (gs : List String) (h : hitCount gs ≠ 0) :
    ocean_from_genres gs =
      (round1 (interp (oceanMean gs fun w => w.1)),
       round1 (interp (oceanMean gs fun w => w.2.1)),
       round1 (interp (oceanMean gs fun w => w.2.2.1)),
       round1 (interp (oceanMean gs fun w => w.2.2.2.1)),
       round1 (interp (oceanMean gs fun w => w.2.2.2.2))) := by
  unfold hitCount at h
  simp only [ocean_from_genres, oceanFold_eq_sum]
  rw [if_neg h]
  simp only [oceanMean, colSum, hitCount, w5sum_1, w5sum_2, w5sum_3,
    w5sum_4, w5sum_5]

theorem oceanMean_bounds (gs : List String) (h : hitCount gs ≠ 0)
    (f : W5 → ℕ) (hf : ∀ g w, weightOf g = some w → 1 ≤ f w ∧ f w ≤ 5) :
    1 ≤ oceanMean gs f ∧ oceanMean gs f ≤ 5 := by
  have hb : ∀ w ∈ matchedWeights gs, 1 ≤ f w ∧ f w ≤ 5 := by
    intro w hw
    obtain ⟨g, hg⟩ := mem_matchedWeights hw
    exact hf g w hg
  obtain ⟨hl, hu⟩ := col_sum_bounds f (matchedWeights gs) hb
  have hn : (0:ℚ) < ((hitCount gs : ℕ) : ℚ) := by
    exact_mod_cast Nat.pos_of_ne_zero h
  unfold oceanMean
  constructor
  · rw [le_div_iff₀ hn, one_mul]
    unfold colSum hitCount
    exact_mod_cast hl
  · rw [div_le_iff₀ hn]
    unfold colSum hitCount
    calc (((matchedWeights gs).map f).sum : ℚ) ≤
        ((5 * (matchedWeights gs).length : ℕ) : ℚ) := by exact_mod_cast hu
      _ = 5 * ((matchedWeights gs).length : ℚ) := by push_cast; ring

theorem colSum_o3n (gs : List String) :
    colSum gs (fun w => w.1) + 3 * colSum gs (fun w => w.2.2.2.2) ≤
      11 * hitCount gs := by
  unfold colSum hitCount
  apply col_o3n_aux
  intro w hw
  obtain ⟨g, hg⟩ := mem_matchedWeights hw
  exact weights_o_plus_3n g w hg

/-- Evaluate one scored component at concrete column totals. -/
theorem scored_eval (gs : List String) (f : W5 → ℕ) (a n : ℕ) (z : ℤ)
    (ha : colSum gs f = a) (hn : hitCount gs = n) (hpos : 0 < n)
    (h1 : n ≤ a) (h5 : a ≤ 5 * n)
    (hz : (10:ℚ) * (20 + ((a:ℚ)/(n:ℚ) - 1) * 15) = (z:ℚ)) (r : ℚ)
    (hr : (z:ℚ)/10 = r) :
    round1 (interp (oceanMean gs f)) = r := by
  have hq : (0:ℚ) < (n:ℚ) := by exact_mod_cast hpos
  have hm1 : (1:ℚ) ≤ (a:ℚ)/(n:ℚ) := by
    rw [le_div_iff₀ hq, one_mul]; exact_mod_cast h1
  have hm5 : (a:ℚ)/(n:ℚ) ≤ 5 := by
    rw [div_le_iff₀ hq]
    calc (a:ℚ) ≤ ((5 * n : ℕ) : ℚ) := by exact_mod_cast h5
      _ = 5 * (n:ℚ) := by push_cast; ring
  rw [oceanMean, ha, hn, interp_eq _ hm1 hm5, round1_intOver10 _ z hz, hr]

theorem comp_eq (gs : List String) (h : hitCount gs ≠ 0) (f : W5 → ℕ)
    (hf : ∀ g w, weightOf g = some w → 1 ≤ f w ∧ f w ≤ 5) :
    round1 (interp (oceanMean gs f)) =
      round1 (20 + (((matchedWeights gs).map fun w => (f w : ℚ)).sum /
        ((matchedWeights gs).length : ℚ) - 1) * (80 - 20) / (5 - 1)) := by
  obtain ⟨h1, h5⟩ := oceanMean_bounds gs h f hf
  have hm : ((matchedWeights gs).map fun w => (f w : ℚ)).sum /
      ((matchedWeights gs).length : ℚ) = oceanMean gs f := by
    unfold oceanMean colSum hitCount
    rw [Nat.cast_list_sum, List.map_map]
    rfl
  rw [hm, interp_eq _ h1 h5]
  congr 1
  ring

theorem comp_bounds (gs : List String) (h : hitCount gs ≠ 0) (f : W5 → ℕ)
    (hf : ∀ g w, weightOf g = some w → 1 ≤ f w ∧ f w ≤ 5) :
    20 ≤ round1 (interp (oceanMean gs f)) ∧
      round1 (interp (oceanMean gs f)) ≤ 80 := by
  obtain ⟨h1, h5⟩ := oceanMean_bounds gs h f hf
  obtain ⟨hl, hu⟩ := interp_bounds _ h1 h5
  have hb := round1_mem_Icc (interp (oceanMean gs f)) 20 80
    (by exact_mod_cast hl) (by exact_mod_cast hu)
  exact ⟨by exact_mod_cast hb.1, by exact_mod_cast hb.2⟩

/-! ## Claims -/

/-- C1: whenever at least one input genre case-folds to a key of the
19-entry weight table, `score` returns the elementwise mean of the matched
weight rows (accumulator divided by hit count) rescaled from `[1, 5]` to
`[20, 80]` by `rescaled = 20 + (mean - 1) * (80 - 20) / (5 - 1)` and
rounded to one decimal place half-to-even — i.e. it agrees with the
spec-worded scorer `score_spec`; in particular
`score(["indie", "classical"]) = (72.5, 42.5, 27.5, 42.5, 20.0)`. -/
theorem C1_score_is_rescaled_rounded_mean :
    (∀ gs : List String, (∃ g ∈ gs, (weightOf (pyLower g)).isSome) →
        ocean_from_genres gs = score_spec gs) ∧
    ocean_from_genres ["indie", "classical"] =
      (72.5, 42.5, 27.5, 42.5, 20.0) := by
  constructor
  · intro gs hex
    obtain ⟨g, hgmem, hgsome⟩ := hex
    obtain ⟨w, hw⟩ := Option.isSome_iff_exists.mp hgsome
    have hwmem : w ∈ matchedWeights gs := by
      unfold matchedWeights
      exact List.mem_filterMap.mpr ⟨g, hgmem, hw⟩
    have hne0 : matchedWeights gs ≠ [] := by
      intro h0
      rw [h0] at hwmem
      exact List.not_mem_nil w hwmem
    have hne : hitCount gs ≠ 0 := by
      unfold hitCount
      exact fun h0 => hne0 (List.length_eq_zero.mp h0)
    rw [ocean_from_genres_scored gs hne]
    simp only [score_spec]
    rw [if_neg hne0]
    simp only [Prod.mk.injEq]
    exact ⟨comp_eq gs hne _ (fun g w hw => (weights_bounds g w hw).1),
           comp_eq gs hne _ (fun g w hw => (weights_bounds g w hw).2.1),
           comp_eq gs hne _ (fun g w hw => (weights_bounds g w hw).2.2.1),
           comp_eq gs hne _ (fun g w hw => (weights_bounds g w hw).2.2.2.1),
           comp_eq gs hne _ (fun g w hw => (weights_bounds g w hw).2.2.2.2)⟩
  · rw [ocean_from_genres_scored _ (by decide)]
    simp only [Prod.mk.injEq]
    exact ⟨scored_eval _ _ 9 2 725 (by decide) (by decide) (by norm_num)
        (by norm_num) (by norm_num) (by norm_num) _ (by norm_num),
      scored_eval _ _ 5 2 425 (by decide) (by decide) (by norm_num)
        (by norm_num) (by norm_num) (by norm_num) _ (by norm_num),
      scored_eval _ _ 3 2 275 (by decide) (by decide) (by norm_num)
        (by norm_num) (by norm_num) (by norm_num) _ (by norm_num),
      scored_eval _ _ 5 2 425 (by decide) (by decide) (by norm_num)
        (by norm_num) (by norm_num) (by norm_num) _ (by norm_num),
      scored_eval _ _ 2 2 200 (by decide) (by decide) (by norm_num)
        (by norm_num) (by norm_num) (by norm_num) _ (by norm_num)⟩

/-- Witness for C1: the general half instantiated at `["jazz"]`. -/
theorem C1_score_is_rescaled_rounded_mean_witness :
    ocean_from_genres ["jazz"] = score_spec ["jazz"] :=
  C1_score_is_rescaled_rounded_mean.1 ["jazz"] ⟨"jazz", by decide, by decide⟩

/-- C4: `score` returns the all-50s sentinel exactly when no input genre
case-folds to a key of the weight table (in particular on empty input);
conversely, any scored output differs from the sentinel. -/
theorem C4_sentinel_iff_no_match (gs : List String) :
    ocean_from_genres gs = (50, 50, 50, 50, 50) ↔
      ∀ g ∈ gs, weightOf (pyLower g) = none := by
  constructor
  · intro h
    rw [← hitCount_eq_zero_iff]
    by_contra hne
    rw [ocean_from_genres_scored gs hne] at h
    simp only [Prod.mk.injEq] at h
    obtain ⟨e1, -, -, -, e5⟩ := h
    obtain ⟨hA1, hA5⟩ := oceanMean_bounds gs hne _
      (fun g w hw => (weights_bounds g w hw).1)
    obtain ⟨hB1, hB5⟩ := oceanMean_bounds gs hne _
      (fun g w hw => (weights_bounds g w hw).2.2.2.2)
    have z1 : ((roundHalfEven
        (10 * interp (oceanMean gs fun w => w.1)) : ℤ) : ℚ) = 500 := by
      unfold round1 at e1
      rw [div_eq_iff (by norm_num : (10:ℚ) ≠ 0)] at e1
      rw [e1]; norm_num
    have z5 : ((roundHalfEven
        (10 * interp (oceanMean gs fun w => w.2.2.2.2)) : ℤ) : ℚ) =
          500 := by
      unfold round1 at e5
      rw [div_eq_iff (by norm_num : (10:ℚ) ≠ 0)] at e5
      rw [e5]; norm_num
    obtain ⟨b1, b2⟩ := roundHalfEven_bounds
      (10 * interp (oceanMean gs fun w => w.1))
    rw [z1, interp_eq _ hA1 hA5] at b1 b2
    obtain ⟨c1, c2⟩ := roundHalfEven_bounds
      (10 * interp (oceanMean gs fun w => w.2.2.2.2))
    rw [z5, interp_eq _ hB1 hB5] at c1 c2
    have hm1 : 899/300 ≤ oceanMean gs (fun w => w.1) := by linarith
    have hm5 : 899/300 ≤ oceanMean gs (fun w => w.2.2.2.2) := by linarith
    have hnq : (0:ℚ) < (hitCount gs : ℚ) := by
      exact_mod_cast Nat.pos_of_ne_zero hne
    have hA : 899/300 * (hitCount gs : ℚ) ≤
        (colSum gs (fun w => w.1) : ℚ) := by
      have hmul := mul_le_mul_of_nonneg_right hm1 (le_of_lt hnq)
      rwa [oceanMean, div_mul_cancel₀ _ (ne_of_gt hnq)] at hmul
    have hB : 899/300 * (hitCount gs : ℚ) ≤
        (colSum gs (fun w => w.2.2.2.2) : ℚ) := by
      have hmul := mul_le_mul_of_nonneg_right hm5 (le_of_lt hnq)
      rwa [oceanMean, div_mul_cancel₀ _ (ne_of_gt hnq)] at hmul
    have hsum : (colSum gs (fun w => w.1) : ℚ) +
        3 * (colSum gs (fun w => w.2.2.2.2) : ℚ) ≤
          11 * (hitCount gs : ℚ) := by
      exact_mod_cast colSum_o3n gs
    linarith
  · intro h
    exact ocean_from_genres_sentinel gs ((hitCount_eq_zero_iff gs).mpr h)

/-- Witness for C4: both directions at concrete inputs. -/
theorem C4_sentinel_iff_no_match_witness :
    ocean_from_genres ["xyz-unknown-genre"] = (50, 50, 50, 50, 50) :=
  (C4_sentinel_iff_no_match ["xyz-unknown-genre"]).mpr (by decide)

/-- C8: every component of `score`'s output lies in `[20, 80]`, in the
sentinel case and in the scored case alike, with no explicit clamping. -/
theorem C8_scores_within_20_80 (gs : List String) :
    (20 ≤ (ocean_from_genres gs).1 ∧ (ocean_from_genres gs).1 ≤ 80) ∧
    (20 ≤ (ocean_from_genres gs).2.1 ∧ (ocean_from_genres gs).2.1 ≤ 80) ∧
    (20 ≤ (ocean_from_genres gs).2.2.1 ∧
      (ocean_from_genres gs).2.2.1 ≤ 80) ∧
    (20 ≤ (ocean_from_genres gs).2.2.2.1 ∧
      (ocean_from_genres gs).2.2.2.1 ≤ 80) ∧
    (20 ≤ (ocean_from_genres gs).2.2.2.2 ∧
      (ocean_from_genres gs).2.2.2.2 ≤ 80) := by
  rcases Nat.eq_zero_or_pos (hitCount gs) with h0 | hpos
  · rw [ocean_from_genres_sentinel gs h0]
    norm_num
  · have hne : hitCount gs ≠ 0 := Nat.pos_iff_ne_zero.mp hpos
    rw [ocean_from_genres_scored gs hne]
    exact ⟨comp_bounds gs hne _ (fun g w hw => (weights_bounds g w hw).1),
      comp_bounds gs hne _ (fun g w hw => (weights_bounds g w hw).2.1),
      comp_bounds gs hne _ (fun g w hw => (weights_bounds g w hw).2.2.1),
      comp_bounds gs hne _
        (fun g w hw => (weights_bounds g w hw).2.2.2.1),
      comp_bounds gs hne _
        (fun g w hw => (weights_bounds g w hw).2.2.2.2)⟩

/-! ## Classifier lemmas -/

theorem tallyGenre_not_mem (t : Tally) (gl : String) (h1 : gl ∉ catINFP)
    (h2 : gl ∉ catESFJ) (h3 : gl ∉ catESTP) (h4 : gl ∉ catINTJ)
    (h5 : gl ∉ catESTP2) (h6 : gl ∉ catIFJ) (h7 : gl ∉ catINTP) :
    tallyGenre t gl = t := by
  unfold tallyGenre
  rw [if_neg h1, if_neg h2, if_neg h3, if_neg h4, if_neg h5, if_neg h6,
    if_neg h7]

theorem mbtiStep_no_category (t : Tally) (g : String)
    (h : ¬ inAnyCategory g) : mbtiStep t g = t := by
  unfold inAnyCategory at h
  push_neg at h
  obtain ⟨h1, h2, h3, h4, h5, h6, h7⟩ := h
  exact tallyGenre_not_mem t (pyLower g) h1 h2 h3 h4 h5 h6 h7

theorem oceanStep_none (acc : OceanAcc) (g : String)
    (h : weightOf (pyLower g) = none) : oceanStep acc g = acc := by
  simp [oceanStep, accGenre, h]

/-- On non-empty input the classifier output is four characters, one from
each axis pair. -/
theorem mbti_letters (gs : List String) (h : gs ≠ []) :
    ∃ a b c d : Char, (a = 'I' ∨ a = 'E') ∧ (b = 'N' ∨ b = 'S') ∧
      (c = 'T' ∨ c = 'F') ∧ (d = 'J' ∨ d = 'P') ∧
      mbti_from_genres gs = String.mk [a, b, c, d] := by
  unfold mbti_from_genres
  rw [if_neg h]
  set t := gs.foldl mbtiStep Tally.zero
  by_cases h1 : t.I ≥ t.E <;> by_cases h2 : t.N ≥ t.S <;>
    by_cases h3 : t.T ≥ t.F <;> by_cases h4 : t.J ≥ t.P <;>
    simp only [h1, h2, h3, h4, if_pos, if_neg, if_true, if_false,
      not_false_iff] <;>
    first
    | exact ⟨'I', 'N', 'T', 'J', .inl rfl, .inl rfl, .inl rfl, .inl rfl, rfl⟩
    | exact ⟨'I', 'N', 'T', 'P', .inl rfl, .inl rfl, .inl rfl, .inr rfl, rfl⟩
    | exact ⟨'I', 'N', 'F', 'J', .inl rfl, .inl rfl, .inr rfl, .inl rfl, rfl⟩
    | exact ⟨'I', 'N', 'F', 'P', .inl rfl, .inl rfl, .inr rfl, .inr rfl, rfl⟩
    | exact ⟨'I', 'S', 'T', 'J', .inl rfl, .inr rfl, .inl rfl, .inl rfl, rfl⟩
    | exact ⟨'I', 'S', 'T', 'P', .inl rfl, .inr rfl, .inl rfl, .inr rfl, rfl⟩
    | exact ⟨'I', 'S', 'F', 'J', .inl rfl, .inr rfl, .inr rfl, .inl rfl, rfl⟩
    | exact ⟨'I', 'S', 'F', 'P', .inl rfl, .inr rfl, .inr rfl, .inr rfl, rfl⟩
    | exact ⟨'E', 'N', 'T', 'J', .inr rfl, .inl rfl, .inl rfl, .inl rfl, rfl⟩
    | exact ⟨'E', 'N', 'T', 'P', .inr rfl, .inl rfl, .inl rfl, .inr rfl, rfl⟩
    | exact ⟨'E', 'N', 'F', 'J', .inr rfl, .inl rfl, .inr rfl, .inl rfl, rfl⟩
    | exact ⟨'E', 'N', 'F', 'P', .inr rfl, .inl rfl, .inr rfl, .inr rfl, rfl⟩
    | exact ⟨'E', 'S', 'T', 'J', .inr rfl, .inr rfl, .inl rfl, .inl rfl, rfl⟩
    | exact ⟨'E', 'S', 'T', 'P', .inr rfl, .inr rfl, .inl rfl, .inr rfl, rfl⟩
    | exact ⟨'E', 'S', 'F', 'J', .inr rfl, .inr rfl, .inr rfl, .inl rfl, rfl⟩
    | exact ⟨'E', 'S', 'F', 'P', .inr rfl, .inr rfl, .inr rfl, .inr rfl, rfl⟩

/-- C2: on non-empty input each of the 4 axes is resolved independently by
the left-letter-wins-on-tie rule over the accumulated tally; consequently
any single genre that matches no category (all tallies zero) classifies as
"INTJ", e.g. `classify(["xyz-unknown-genre"]) = "INTJ"`. -/
theorem C2_axes_left_letter_wins :
    (∀ gs : List String, gs ≠ [] →
      mbti_from_genres gs =
        (if (mbtiTally gs).I ≥ (mbtiTally gs).E then "I" else "E") ++
        (if (mbtiTally gs).N ≥ (mbtiTally gs).S then "N" else "S") ++
        (if (mbtiTally gs).T ≥ (mbtiTally gs).F then "T" else "F") ++
        (if (mbtiTally gs).J ≥ (mbtiTally gs).P then "J" else "P")) ∧
    (∀ g : String, ¬ inAnyCategory g → mbti_from_genres [g] = "INTJ") ∧
    mbti_from_genres ["xyz-unknown-genre"] = "INTJ" := by
  refine ⟨?_, ?_, by decide⟩
  · intro gs h
    unfold mbti_from_genres mbtiTally
    rw [if_neg h]
  · intro g hg
    unfold mbti_from_genres
    rw [if_neg (by simp : ([g] : List String) ≠ [])]
    simp only [List.foldl_cons, List.foldl_nil,
      mbtiStep_no_category Tally.zero g hg]
    decide

/-- Witness for C2: the axis rule at `["rock"]` and the no-category rule at
`["zzz"]`. -/
theorem C2_axes_left_letter_wins_witness :
    mbti_from_genres ["rock"] =
      (if (mbtiTally ["rock"]).I ≥ (mbtiTally ["rock"]).E then "I"
        else "E") ++
      (if (mbtiTally ["rock"]).N ≥ (mbtiTally ["rock"]).S then "N"
        else "S") ++
      (if (mbtiTally ["rock"]).T ≥ (mbtiTally ["rock"]).F then "T"
        else "F") ++
      (if (mbtiTally ["rock"]).J ≥ (mbtiTally ["rock"]).P then "J"
        else "P") ∧
    mbti_from_genres ["zzz"] = "INTJ" :=
  ⟨C2_axes_left_letter_wins.1 ["rock"] (by decide),
   C2_axes_left_letter_wins.2.1 "zzz" (by decide)⟩

/-- C3: the classifier returns the sentinel "Unknown" exactly on empty
input; on non-empty input it returns a 4-character code, one letter per
axis pair, which in particular is never the literal "Unknown". -/
theorem C3_unknown_iff_empty (gs : List String) :
    (mbti_from_genres gs = "Unknown" ↔ gs = []) ∧
    (gs ≠ [] → ∃ a b c d : Char, (a = 'I' ∨ a = 'E') ∧ (b = 'N' ∨ b = 'S') ∧
      (c = 'T' ∨ c = 'F') ∧ (d = 'J' ∨ d = 'P') ∧
      mbti_from_genres gs = String.mk [a, b, c, d]) := by
  constructor
  · constructor
    · intro h
      by_contra hne
      obtain ⟨a, b, c, d, -, -, -, -, heq⟩ := mbti_letters gs hne
      rw [heq] at h
      have hlen := congrArg String.length h
      simp [String.length] at hlen
    · intro h
      rw [h]
      rfl
  · exact mbti_letters gs

/-- Witness for C3: the letter decomposition instantiated at `["soul"]`. -/
theorem C3_unknown_iff_empty_witness :
    ∃ a b c d : Char, (a = 'I' ∨ a = 'E') ∧ (b = 'N' ∨ b = 'S') ∧
      (c = 'T' ∨ c = 'F') ∧ (d = 'J' ∨ d = 'P') ∧
      mbti_from_genres ["soul"] = String.mk [a, b, c, d] :=
  (C3_unknown_iff_empty ["soul"]).2 (by decide)

/-- C5: the tally is accumulated exactly per the static category table —
each matched genre adds +1 to the fixed 3–4 axis letters of its category,
a genre in no category adds nothing, and no genre ever increments both
letters of one axis; in particular `classify(["indie","folk"]) = "INFP"`
and `classify(["pop"]) = "ESFJ"`. -/
theorem C5_tally_per_category_table :
    (∀ (t : Tally) (g : String),
      (pyLower g ∈ catINFP → mbtiStep t g =
        { t with I := t.I + 1, N := t.N + 1, F := t.F + 1, P := t.P + 1 }) ∧
      (pyLower g ∈ catESFJ → mbtiStep t g =
        { t with E := t.E + 1, S := t.S + 1, F := t.F + 1, J := t.J + 1 }) ∧
      (pyLower g ∈ catESTP → mbtiStep t g =
        { t with E := t.E + 1, S := t.S + 1, T := t.T + 1, P := t.P + 1 }) ∧
      (pyLower g ∈ catINTJ → mbtiStep t g =
        { t with I := t.I + 1, N := t.N + 1, T := t.T + 1, J := t.J + 1 }) ∧
      (pyLower g ∈ catESTP2 → mbtiStep t g =
        { t with E := t.E + 1, S := t.S + 1, T := t.T + 1, P := t.P + 1 }) ∧
      (pyLower g ∈ catIFJ → mbtiStep t g =
        { t with I := t.I + 1, F := t.F + 1, J := t.J + 1 }) ∧
      (pyLower g ∈ catINTP → mbtiStep t g =
        { t with I := t.I + 1, N := t.N + 1, T := t.T + 1, P := t.P + 1 }) ∧
      (¬ inAnyCategory g → mbtiStep t g = t) ∧
      (((mbtiStep Tally.zero g).I = 0 ∨ (mbtiStep Tally.zero g).E = 0) ∧
       ((mbtiStep Tally.zero g).N = 0 ∨ (mbtiStep Tally.zero g).S = 0) ∧
       ((mbtiStep Tally.zero g).T = 0 ∨ (mbtiStep Tally.zero g).F = 0) ∧
       ((mbtiStep Tally.zero g).J = 0 ∨ (mbtiStep Tally.zero g).P = 0))) ∧
    mbti_from_genres ["indie", "folk"] = "INFP" ∧
    mbti_from_genres ["pop"] = "ESFJ" := by
  refine ⟨?_, by decide, by decide⟩
  intro t g
  refine ⟨?_, ?_, ?_, ?_, ?_, ?_, ?_, mbtiStep_no_category t g, ?_⟩
  · intro hm
    simp only [catINFP, List.mem_cons, List.mem_singleton,
      List.not_mem_nil, or_false] at hm
    unfold mbtiStep tallyGenre
    rcases hm with h | h | h | h <;> rw [h] <;> rfl
  · intro hm
    simp only [catESFJ, List.mem_cons, List.mem_singleton,
      List.not_mem_nil, or_false] at hm
    unfold mbtiStep tallyGenre
    rcases hm with h | h | h | h <;> rw [h] <;> rfl
  · intro hm
    simp only [catESTP, List.mem_cons, List.mem_singleton,
      List.not_mem_nil, or_false] at hm
    unfold mbtiStep tallyGenre
    rcases hm with h | h | h <;> rw [h] <;> rfl
  · intro hm
    simp only [catINTJ, List.mem_cons, List.mem_singleton,
      List.not_mem_nil, or_false] at hm
    unfold mbtiStep tallyGenre
    rcases hm with h | h | h <;> rw [h] <;> rfl
  · intro hm
    simp only [catESTP2, List.mem_cons, List.mem_singleton,
      List.not_mem_nil, or_false] at hm
    unfold mbtiStep tallyGenre
    rcases hm with h | h | h <;> rw [h] <;> rfl
  · intro hm
    simp only [catIFJ, List.mem_cons, List.mem_singleton,
      List.not_mem_nil, or_false] at hm
    unfold mbtiStep tallyGenre
    rcases hm with h | h <;> rw [h] <;> rfl
  · intro hm
    simp only [catINTP, List.mem_cons, List.mem_singleton,
      List.not_mem_nil, or_false] at hm
    unfold mbtiStep tallyGenre
    rw [hm]
    rfl
  · unfold mbtiStep tallyGenre
    split_ifs <;> simp [Tally.zero]

/-- Witness for C5: the first category rule applied at `"Indie"` and the
no-category rule at `"zzz"`. -/
theorem C5_tally_per_category_table_witness :
    mbtiStep Tally.zero "Indie" = ⟨1, 0, 1, 0, 0, 1, 0, 1⟩ ∧
    mbtiStep Tally.zero "zzz" = Tally.zero :=
  ⟨(C5_tally_per_category_table.1 Tally.zero "Indie").1 (by decide),
   (C5_tally_per_category_table.1 Tally.zero
      "zzz").2.2.2.2.2.2.2.1 (by decide)⟩

/-! ## Permutation and case invariance -/

theorem mbtiTally_perm_case (gs1 gs2 : List String)
    (h : (gs1.map pyLower).Perm (gs2.map pyLower)) :
    mbtiTally gs1 = mbtiTally gs2 := by
  unfold mbtiTally
  rw [mbtiFold_eq_sum, mbtiFold_eq_sum]
  have e1 : gs1.map (mbtiStep 0) = (gs1.map pyLower).map (tallyGenre 0) := by
    rw [List.map_map]; rfl
  have e2 : gs2.map (mbtiStep 0) = (gs2.map pyLower).map (tallyGenre 0) := by
    rw [List.map_map]; rfl
  rw [e1, e2]
  exact (h.map (tallyGenre 0)).sum_eq

theorem oceanFold_perm_case (gs1 gs2 : List String)
    (h : (gs1.map pyLower).Perm (gs2.map pyLower)) :
    gs1.foldl oceanStep ((0, 0, 0, 0, 0), 0) =
      gs2.foldl oceanStep ((0, 0, 0, 0, 0), 0) := by
  have h0 : ((0, 0, 0, 0, 0), 0) = (0 : OceanAcc) := rfl
  rw [h0, foldl_shift_sum oceanStep oceanStep_shift gs1 0,
    foldl_shift_sum oceanStep oceanStep_shift gs2 0]
  have e1 : gs1.map (oceanStep 0) = (gs1.map pyLower).map (accGenre 0) := by
    rw [List.map_map]; rfl
  have e2 : gs2.map (oceanStep 0) = (gs2.map pyLower).map (accGenre 0) := by
    rw [List.map_map]; rfl
  rw [e1, e2, (h.map (accGenre 0)).sum_eq]

/-- C6: both the classifier and the scorer are invariant under reordering
the input and under any change of letter case inside each genre string
(stated jointly: inputs whose case-folded images are permutations of each
other classify and score identically). -/
theorem C6_order_and_case_invariance (gs1 gs2 : List String)
    (h : (gs1.map pyLower).Perm (gs2.map pyLower)) :
    mbti_from_genres gs1 = mbti_from_genres gs2 ∧
    ocean_from_genres gs1 = ocean_from_genres gs2 := by
  constructor
  · have hlen := h.length_eq
    simp only [List.length_map] at hlen
    unfold mbti_from_genres
    by_cases h1 : gs1 = []
    · subst h1
      simp only [List.length_nil] at hlen
      have h2 : gs2 = [] := by
        rw [← List.length_eq_zero]; omega
      rw [h2]
    · have h2 : gs2 ≠ [] := by
        intro h0
        subst h0
        simp only [List.length_nil] at hlen
        exact h1 (List.length_eq_zero.mp hlen)
      rw [if_neg h1, if_neg h2]
      have ht := mbtiTally_perm_case gs1 gs2 h
      unfold mbtiTally at ht
      rw [ht]
  · unfold ocean_from_genres
    rw [oceanFold_perm_case gs1 gs2 h]

/-- Witness for C6: reordering plus case changes at a concrete input. -/
theorem C6_order_and_case_invariance_witness :
    mbti_from_genres ["Indie", "ROCK"] = mbti_from_genres ["rock", "indie"] ∧
    ocean_from_genres ["Indie", "ROCK"] =
      ocean_from_genres ["rock", "indie"] :=
  C6_order_and_case_invariance ["Indie", "ROCK"] ["rock", "indie"]
    (by decide)

/-! ## Unrecognized genres (C7) -/

/-- Counterexample to C7 as stated: inserting the unrecognized genre
`"xyz-unknown-genre"` into the *empty* input does change the classifier
output (from the sentinel "Unknown" to "INTJ"), even though the genre is
in neither table. -/
theorem C7_counterexample_empty_input :
    ¬ inAnyCategory "xyz-unknown-genre" ∧
    weightOf (pyLower "xyz-unknown-genre") = none ∧
    mbti_from_genres ["xyz-unknown-genre"] ≠ mbti_from_genres [] := by
  decide

/-- C7 (amended): a genre present in neither lookup table is silently
ignored — inserting it anywhere never changes the score output, and never
changes the classifier output provided the rest of the input is non-empty
(on empty input the insertion flips the classifier from "Unknown" to a
scored type). -/
theorem C7_unknown_genres_ignored (gs1 gs2 : List String) (g : String) :
    (weightOf (pyLower g) = none →
      ocean_from_genres (gs1 ++ g :: gs2) = ocean_from_genres (gs1 ++ gs2)) ∧
    (¬ inAnyCategory g → gs1 ++ gs2 ≠ [] →
      mbti_from_genres (gs1 ++ g :: gs2) =
        mbti_from_genres (gs1 ++ gs2)) := by
  constructor
  · intro hw
    have hacc : (gs1 ++ g :: gs2).foldl oceanStep ((0, 0, 0, 0, 0), 0) =
        (gs1 ++ gs2).foldl oceanStep ((0, 0, 0, 0, 0), 0) := by
      rw [List.foldl_append, List.foldl_append, List.foldl_cons,
        oceanStep_none _ g hw]
    unfold ocean_from_genres
    rw [hacc]
  · intro hg hne
    have hins : gs1 ++ g :: gs2 ≠ [] := by
      intro h0
      exact absurd (List.append_eq_nil.mp h0).2 (by simp)
    have hacc : (gs1 ++ g :: gs2).foldl mbtiStep Tally.zero =
        (gs1 ++ gs2).foldl mbtiStep Tally.zero := by
      rw [List.foldl_append, List.foldl_append, List.foldl_cons,
        mbtiStep_no_category _ g hg]
    unfold mbti_from_genres
    rw [if_neg hins, if_neg hne, hacc]

/-- Witness for C7 (amended): both halves at concrete inputs. -/
theorem C7_unknown_genres_ignored_witness :
    ocean_from_genres (["rock"] ++ "xyz-unknown-genre" :: []) =
      ocean_from_genres (["rock"] ++ []) ∧
    mbti_from_genres (["rock"] ++ "xyz-unknown-genre" :: []) =
      mbti_from_genres (["rock"] ++ []) :=
  ⟨(C7_unknown_genres_ignored ["rock"] [] "xyz-unknown-genre").1 (by decide),
   (C7_unknown_genres_ignored ["rock"] [] "xyz-unknown-genre").2 (by decide)
     (by decide)⟩

/-! ## Replication invariance (C9) -/

theorem Tally.nsmul_fields (n : ℕ) (t : Tally) :
    (n • t).I = n * t.I ∧ (n • t).E = n * t.E ∧ (n • t).N = n * t.N ∧
    (n • t).S = n * t.S ∧ (n • t).T = n * t.T ∧ (n • t).F = n * t.F ∧
    (n • t).J = n * t.J ∧ (n • t).P = n * t.P := by
  induction n with
  | zero => simp [zero_nsmul]
  | succ n ih =>
    obtain ⟨h1, h2, h3, h4, h5, h6, h7, h8⟩ := ih
    simp only [succ_nsmul, Tally.add_I, Tally.add_E, Tally.add_N,
      Tally.add_S, Tally.add_T, Tally.add_F, Tally.add_J, Tally.add_P,
      h1, h2, h3, h4, h5, h6, h7, h8]
    refine ⟨?_, ?_, ?_, ?_, ?_, ?_, ?_, ?_⟩ <;> ring

theorem oceanAcc_nsmul_fields (n : ℕ) (p : OceanAcc) :
    (n • p).1.1 = n * p.1.1 ∧ (n • p).1.2.1 = n * p.1.2.1 ∧
    (n • p).1.2.2.1 = n * p.1.2.2.1 ∧
    (n • p).1.2.2.2.1 = n * p.1.2.2.2.1 ∧
    (n • p).1.2.2.2.2 = n * p.1.2.2.2.2 ∧ (n • p).2 = n * p.2 := by
  induction n with
  | zero => simp [zero_nsmul]
  | succ n ih =>
    obtain ⟨h1, h2, h3, h4, h5, h6⟩ := ih
    simp only [succ_nsmul, Prod.fst_add, Prod.snd_add, h1, h2, h3, h4, h5,
      h6]
    refine ⟨?_, ?_, ?_, ?_, ?_, ?_⟩ <;> ring

theorem flatten_replicate_nil {α : Type} (n : ℕ) :
    (List.replicate n ([] : List α)).flatten = [] := by
  induction n with
  | zero => rfl
  | succ m ih => simp [List.replicate_succ, ih]

theorem flatten_replicate_fold_mbti (n : ℕ) (gs : List String) :
    ((List.replicate n gs).flatten).foldl mbtiStep Tally.zero =
      n • gs.foldl mbtiStep Tally.zero := by
  rw [mbtiFold_eq_sum, mbtiFold_eq_sum, List.map_flatten,
    List.map_replicate, List.sum_flatten, List.map_replicate,
    List.sum_replicate]

theorem flatten_replicate_fold_ocean (n : ℕ) (gs : List String) :
    ((List.replicate n gs).flatten).foldl oceanStep ((0, 0, 0, 0, 0), 0) =
      n • gs.foldl oceanStep ((0, 0, 0, 0, 0), 0) := by
  have h0 : ((0, 0, 0, 0, 0), 0) = (0 : OceanAcc) := rfl
  rw [h0, foldl_shift_sum oceanStep oceanStep_shift
    ((List.replicate n gs).flatten) 0,
    foldl_shift_sum oceanStep oceanStep_shift gs 0]
  simp only [zero_add]
  rw [List.map_flatten, List.map_replicate, List.sum_flatten,
    List.map_replicate, List.sum_replicate]

theorem ite_scale_letter (n a b : ℕ) (hn : 0 < n) (s1 s2 : String) :
    (if n * a ≥ n * b then s1 else s2) = (if a ≥ b then s1 else s2) := by
  by_cases h : a ≥ b
  · rw [if_pos h, if_pos (Nat.mul_le_mul_left n h)]
  · rw [if_neg h, if_neg (fun hc => h (Nat.le_of_mul_le_mul_left hc hn))]

theorem mbti_replicate (gs : List String) (n : ℕ) (hn : 1 ≤ n) :
    mbti_from_genres (List.replicate n gs).flatten =
      mbti_from_genres gs := by
  have hn0 : 0 < n := hn
  by_cases hgs : gs = []
  · subst hgs
    rw [flatten_replicate_nil]
  · have hne : (List.replicate n gs).flatten ≠ [] := by
      intro h0
      have hl := congrArg List.length h0
      rw [List.length_flatten, List.map_replicate] at hl
      simp only [List.sum_replicate, smul_eq_mul, List.length_nil] at hl
      rcases Nat.mul_eq_zero.mp hl with h | h
      · omega
      · exact hgs (List.length_eq_zero.mp h)
    unfold mbti_from_genres
    rw [if_neg hne, if_neg hgs, flatten_replicate_fold_mbti]
    obtain ⟨h1, h2, h3, h4, h5, h6, h7, h8⟩ :=
      Tally.nsmul_fields n (gs.foldl mbtiStep Tally.zero)
    simp only [h1, h2, h3, h4, h5, h6, h7, h8]
    rw [ite_scale_letter n _ _ hn0, ite_scale_letter n _ _ hn0,
      ite_scale_letter n _ _ hn0, ite_scale_letter n _ _ hn0]

theorem ocean_replicate (gs : List String) (n : ℕ) (hn : 1 ≤ n) :
    ocean_from_genres (List.replicate n gs).flatten =
      ocean_from_genres gs := by
  simp only [ocean_from_genres]
  rw [flatten_replicate_fold_ocean]
  obtain ⟨h1, h2, h3, h4, h5, h6⟩ :=
    oceanAcc_nsmul_fields n (gs.foldl oceanStep ((0, 0, 0, 0, 0), 0))
  rw [h1, h2, h3, h4, h5, h6]
  by_cases hH : (gs.foldl oceanStep ((0, 0, 0, 0, 0), 0)).2 = 0
  · rw [hH, Nat.mul_zero, if_pos rfl, if_pos rfl]
  · have hnH : n * (gs.foldl oceanStep ((0, 0, 0, 0, 0), 0)).2 ≠ 0 :=
      Nat.mul_ne_zero (by omega) hH
    rw [if_neg hnH, if_neg hH]
    have hq : (n : ℚ) ≠ 0 := Nat.cast_ne_zero.mpr (by omega)
    have hcomp : ∀ a : ℕ,
        ((n * a : ℕ) : ℚ) /
          ((n * (gs.foldl oceanStep ((0, 0, 0, 0, 0), 0)).2 : ℕ) : ℚ) =
        (a : ℚ) / ((gs.foldl oceanStep ((0, 0, 0, 0, 0), 0)).2 : ℚ) := by
      intro a
      push_cast
      rw [mul_div_mul_left _ _ hq]
    rw [hcomp, hcomp, hcomp, hcomp, hcomp]

/-- C9: both functions are invariant under uniform replication of the
input: for `n ≥ 1`, classifying or scoring the concatenation of `n` copies
of a list gives the same result as the list itself (tallies, accumulator
and hit counter all scale by `n`). -/
theorem C9_replication_invariance (gs : List String) (n : ℕ)
    (hn : 1 ≤ n) :
    mbti_from_genres (List.replicate n gs).flatten =
      mbti_from_genres gs ∧
    ocean_from_genres (List.replicate n gs).flatten =
      ocean_from_genres gs :=
  ⟨mbti_replicate gs n hn, ocean_replicate gs n hn⟩

/-- Witness for C9: two copies of `["indie"]`. -/
theorem C9_replication_invariance_witness :
    mbti_from_genres (List.replicate 2 ["indie"]).flatten =
      mbti_from_genres ["indie"] ∧
    ocean_from_genres (List.replicate 2 ["indie"]).flatten =
      ocean_from_genres ["indie"] :=
  C9_replication_invariance ["indie"] 2 (by norm_num)

/-- C10: the classifier's category vocabulary and the scorer's weight-table
vocabulary differ: "instrumental" is classified (category → "INTJ") but
unscored (sentinel all-50s), while "edm" and "alt rock" are scored
(`score(["edm"]) = (50, 35, 80, 35, 20)`) but match no classifier
category, so `classify(["edm"])` is "INTJ" purely through all-zero
tie-breaks. -/
theorem C10_component_vocabularies_differ :
    inAnyCategory "instrumental" ∧
    weightOf (pyLower "instrumental") = none ∧
    mbti_from_genres ["instrumental"] = "INTJ" ∧
    ocean_from_genres ["instrumental"] = (50, 50, 50, 50, 50) ∧
    (weightOf (pyLower "edm")).isSome ∧
    (weightOf (pyLower "alt rock")).isSome ∧
    ¬ inAnyCategory "edm" ∧ ¬ inAnyCategory "alt rock" ∧
    ocean_from_genres ["edm"] = (50, 35, 80, 35, 20) ∧
    mbti_from_genres ["edm"] = "INTJ" := by
  refine ⟨by decide, by decide, by decide,
    ocean_from_genres_sentinel _ (by decide), by decide, by decide,
    by decide, by decide, ?_, by decide⟩
  rw [ocean_from_genres_scored _ (by decide)]
  simp only [Prod.mk.injEq]
  exact ⟨scored_eval _ _ 3 1 500 (by decide) (by decide) (by norm_num)
      (by norm_num) (by norm_num) (by norm_num) _ (by norm_num),
    scored_eval _ _ 2 1 350 (by decide) (by decide) (by norm_num)
      (by norm_num) (by norm_num) (by norm_num) _ (by norm_num),
    scored_eval _ _ 5 1 800 (by decide) (by decide) (by norm_num)
      (by norm_num) (by norm_num) (by norm_num) _ (by norm_num),
    scored_eval _ _ 2 1 350 (by decide) (by decide) (by norm_num)
      (by norm_num) (by norm_num) (by norm_num) _ (by norm_num),
    scored_eval _ _ 1 1 200 (by decide) (by decide) (by norm_num)
      (by norm_num) (by norm_num) (by norm_num) _ (by norm_num)⟩

end SpotifyApp
